import Mathlib

/-!
Verification development for the `cexess` repository (two Python scripts:
`calc_pei.py` and `calc_coolfunc.py`).

The Python code works on NumPy float arrays; the shallow embedding models
arrays as `List ℝ` and floating-point arithmetic as exact real arithmetic.
`np.log10` is modelled by `Real.logb 10`.  Fallible steps (the `scipy`
interpolator raising on fewer than two sample points or on out-of-bounds
query points) are modelled by an `Option` result.
-/

namespace Cexess

/-- Model of `np.linspace(a, b, num)` (with the default `endpoint=True`):
`num` evenly spaced points from `a` to `b`, the `i`-th being
`a + (b - a) * i / (num - 1)`. -/
noncomputable def linspace (a b : ℝ) (num : ℕ) : List ℝ :=
  if num = 0 then []
  else if num = 1 then [a]
  else (List.range num).map (fun i : ℕ => a + (b - a) * (i : ℝ) / ((num : ℝ) - 1))

/-- Model of `np.searchsorted(xs, t)` with the default `side='left'` on a
sorted array: the number of leading entries strictly below `t`. -/
noncomputable def searchsortedLeft (xs : List ℝ) (t : ℝ) : ℕ :=
  (xs.takeWhile (fun v => decide (v < t))).length

/-- Model of evaluating `scipy.interpolate.interp1d(xs, ys, kind="linear",
assume_sorted=True)` at one point `t`: locate the bracketing segment by
`searchsorted` clipped to `[1, len - 1]`, then evaluate
`slope * (t - x_lo) + y_lo` with `slope = (y_hi - y_lo) / (x_hi - x_lo)`. -/
noncomputable def interpAt (xs ys : List ℝ) (t : ℝ) : ℝ :=
  let i := min (max (searchsortedLeft xs t) 1) (xs.length - 1)
  let xlo := xs.getD (i - 1) 0
  let xhi := xs.getD i 0
  let ylo := ys.getD (i - 1) 0
  let yhi := ys.getD i 0
  (yhi - ylo) / (xhi - xlo) * (t - xlo) + ylo

/-- Model of `scipy.integrate.trapz(ys, xs)`: the sum of
`(x_{i+1} - x_i) * (y_i + y_{i+1}) / 2` over consecutive samples. -/
noncomputable def trapz : List ℝ → List ℝ → ℝ
  | y1 :: y2 :: ys, x1 :: x2 :: xs =>
      (x2 - x1) * (y1 + y2) / 2 + trapz (y2 :: ys) (x2 :: xs)
  | _, _ => 0

/-- Model of `np.min` on a (nonempty) array; `0` on the empty list. -/
noncomputable def listMin : List ℝ → ℝ
  | [] => 0
  | a :: l => l.foldl min a

/-- Model of `np.max` on a (nonempty) array; `0` on the empty list. -/
noncomputable def listMax : List ℝ → ℝ
  | [] => 0
  | a :: l => l.foldl max a

/-- The `results` dictionary built by `calc_pei` (`calc_pei.py` lines 78-82). -/
structure PeiResult where
  area_total : ℝ
  area_below : ℝ
  pei_value : ℝ

/-- Source line 59: `pei_fmin = 1.0 / (0.350 * r500)`. -/
noncomputable def pei_fmin (r500 : ℝ) : ℝ := 1.0 / (0.350 * r500)

/-- Source line 60: `pei_fmax = 1.0 / (0.035 * r500)`. -/
noncomputable def pei_fmax (r500 : ℝ) : ℝ := 1.0 / (0.035 * r500)

/-- Source lines 62-64: `mask = (freqs > 0.0)` and the masked arrays
`freqs[mask]`, `psd1d[mask]`.  The two parallel masked arrays are modelled
as one list of retained `(frequency, power)` pairs. -/
noncomputable def pei_mask_pairs (freqs psd1d : List ℝ) : List (ℝ × ℝ) :=
  (freqs.zip psd1d).filter (fun p => decide (0 < p.1))

/-- Source line 63: `x = np.log10(freqs[mask])`. -/
noncomputable def pei_x (freqs psd1d : List ℝ) : List ℝ :=
  (pei_mask_pairs freqs psd1d).map (fun p => Real.logb 10 p.1)

/-- Source line 64: `y = np.log10(psd1d[mask])`. -/
noncomputable def pei_y (freqs psd1d : List ℝ) : List ℝ :=
  (pei_mask_pairs freqs psd1d).map (fun p => Real.logb 10 p.2)

/-- Source line 65: `pei_xmin = np.log10(pei_fmin)`. -/
noncomputable def pei_xmin (r500 : ℝ) : ℝ := Real.logb 10 (pei_fmin r500)

/-- Source line 66: `pei_xmax = np.log10(pei_fmax)`. -/
noncomputable def pei_xmax (r500 : ℝ) : ℝ := Real.logb 10 (pei_fmax r500)

/-- Source line 70: `x_interp = np.linspace(pei_xmin, pei_xmax, num=interp_np)`. -/
noncomputable def x_interp (r500 : ℝ) (interp_np : ℕ) : List ℝ :=
  linspace (pei_xmin r500) (pei_xmax r500) interp_np

/-- Source line 71: `y_interp = f_interp(x_interp)`. -/
noncomputable def y_interp (freqs psd1d : List ℝ) (r500 : ℝ) (interp_np : ℕ) : List ℝ :=
  (x_interp r500 interp_np).map (interpAt (pei_x freqs psd1d) (pei_y freqs psd1d))

/-- Source line 72: `pei_ymin = np.min(y_interp)`. -/
noncomputable def pei_ymin (freqs psd1d : List ℝ) (r500 : ℝ) (interp_np : ℕ) : ℝ :=
  listMin (y_interp freqs psd1d r500 interp_np)

/-- Source line 73: `pei_ymax = np.max(y_interp)`. -/
noncomputable def pei_ymax (freqs psd1d : List ℝ) (r500 : ℝ) (interp_np : ℕ) : ℝ :=
  listMax (y_interp freqs psd1d r500 interp_np)

/-- Source line 75: `area_total = (pei_xmax - pei_xmin) * (pei_ymax - pei_ymin)`. -/
noncomputable def area_total (freqs psd1d : List ℝ) (r500 : ℝ) (interp_np : ℕ) : ℝ :=
  (pei_xmax r500 - pei_xmin r500) *
    (pei_ymax freqs psd1d r500 interp_np - pei_ymin freqs psd1d r500 interp_np)

/-- Source line 76: `area_below = scipy.integrate.trapz((y_interp-pei_ymin), x_interp)`. -/
noncomputable def area_below (freqs psd1d : List ℝ) (r500 : ℝ) (interp_np : ℕ) : ℝ :=
  trapz ((y_interp freqs psd1d r500 interp_np).map
      (fun v => v - pei_ymin freqs psd1d r500 interp_np))
    (x_interp r500 interp_np)

/-- Source line 77: `pei_value = area_below / area_total`. -/
noncomputable def pei_value (freqs psd1d : List ℝ) (r500 : ℝ) (interp_np : ℕ) : ℝ :=
  area_below freqs psd1d r500 interp_np / area_total freqs psd1d r500 interp_np

/-- Validity condition under which the `scipy` interpolator neither rejects
the sample arrays (`interp1d` demands at least two samples) nor raises a
bounds error (every query point must lie between the first and last sample
abscissa); outside it `calc_pei` raises, modelled as `none`. -/
def peiCond (freqs psd1d : List ℝ) (r500 : ℝ) (interp_np : ℕ) : Prop :=
  2 ≤ (pei_x freqs psd1d).length ∧
    ∀ t ∈ x_interp r500 interp_np,
      (pei_x freqs psd1d).headD 0 ≤ t ∧ t ≤ (pei_x freqs psd1d).getLastD 0

open scoped Classical in
/-- Model of `calc_pei(data, r500, interp_np)` (`calc_pei.py` lines 47-84):
the `(results, data_interp_log10)` pair, where `data_interp_log10` is
`np.column_stack((x_interp, y_interp))` modelled as a list of pairs.
`none` models the `scipy` exceptions captured by `peiCond`. -/
noncomputable def calc_pei (freqs psd1d : List ℝ) (r500 : ℝ) (interp_np : ℕ := 101) :
    Option (PeiResult × List (ℝ × ℝ)) :=
  if peiCond freqs psd1d r500 interp_np then
    some ({ area_total := area_total freqs psd1d r500 interp_np,
            area_below := area_below freqs psd1d r500 interp_np,
            pei_value := pei_value freqs psd1d r500 interp_np },
          (x_interp r500 interp_np).zip (y_interp freqs psd1d r500 interp_np))
  else none

/-- Rectangle area `[x1,x2] × [ylo,yhi]` written from the words of the spec:
"Compute `area_total` as the rectangle spanned by
[x1,x2]×[min(y_interp),max(y_interp)]". -/
noncomputable def spec_rect_area (x1 x2 ylo yhi : ℝ) : ℝ := (x2 - x1) * (yhi - ylo)

/-- Trapezoidal definite integral written from the words of the spec:
the sum over consecutive sampled points `(x_i, y_i)`, `(x_{i+1}, y_{i+1})`
of the trapezoid area `(x_{i+1} - x_i) * (y_i + y_{i+1}) / 2`. -/
noncomputable def spec_trapezoid (xs ys : List ℝ) : ℝ :=
  (List.zipWith (fun p q => (q.1 - p.1) * (p.2 + q.2) / 2)
    (xs.zip ys) ((xs.zip ys).tail)).sum

/-! ### Heap model of the NumPy arrays handled by `calc_pei`

Python passes NumPy arrays by reference, so "`calc_pei` does not modify its
inputs" is a statement about a heap.  A heap maps references (indices) to
array values; every NumPy operation in `calc_pei` allocates a fresh array. -/

/-- A NumPy array value: one-dimensional, or the two-column result of
`np.column_stack`. -/
inductive NpValue where
  | arr1 : List ℝ → NpValue
  | arr2 : List (ℝ × ℝ) → NpValue

/-- A heap of allocated arrays; a reference is an index into `arrs`. -/
structure NpHeap where
  arrs : List NpValue

/-- Read the array at reference `r` (junk empty array when dangling). -/
def NpHeap.read (h : NpHeap) (r : ℕ) : NpValue := h.arrs.getD r (.arr1 [])

/-- Allocate a fresh array, returning the new heap and the fresh reference. -/
def NpHeap.alloc (h : NpHeap) (v : NpValue) : NpHeap × ℕ :=
  (⟨h.arrs ++ [v]⟩, h.arrs.length)

/-- Heap-level model of `calc_pei`: the inputs are references `rf` (the
frequency array) and `rp` (the power array); each NumPy step of the source
(`freqs[mask]`, `psd1d[mask]`, `np.log10` twice, `np.linspace`,
`f_interp(x_interp)`, `np.column_stack`) allocates a fresh array, and no
store to an existing reference occurs anywhere in the function body. -/
noncomputable def calc_pei_heap (h : NpHeap) (rf rp : ℕ) (r500 : ℝ) (interp_np : ℕ) :
    NpHeap × Option (PeiResult × ℕ) :=
  match h.read rf, h.read rp with
  | NpValue.arr1 freqs, NpValue.arr1 psd1d =>
    let h1 := (h.alloc (.arr1 ((pei_mask_pairs freqs psd1d).map Prod.fst))).1
    let h2 := (h1.alloc (.arr1 ((pei_mask_pairs freqs psd1d).map Prod.snd))).1
    let h3 := (h2.alloc (.arr1 (pei_x freqs psd1d))).1
    let h4 := (h3.alloc (.arr1 (pei_y freqs psd1d))).1
    let h5 := (h4.alloc (.arr1 (x_interp r500 interp_np))).1
    let h6 := (h5.alloc (.arr1 (y_interp freqs psd1d r500 interp_np))).1
    match calc_pei freqs psd1d r500 interp_np with
    | some (res, seq) =>
      ((h6.alloc (.arr2 seq)).1, some (res, (h6.alloc (.arr2 seq)).2))
    | none => (h6, none)
  | _, _ => (h, none)

/-! ### The PEI entry point: output record and metadata JSON handling -/

/-- A JSON-serializable value appearing in the PEI output record. -/
inductive JVal where
  | str : String → JVal
  | int : ℤ → JVal
  | num : ℝ → JVal

/-- The R500 descriptor returned by the external `get_r500` collaborator
(the `info` module is not part of this repository): R500 in pixel units and
its lower/upper uncertainties. -/
structure R500Info where
  r500_pix : ℝ
  r500EL_pix : ℝ
  r500EU_pix : ℝ

/-- The ordered `pei_data` record built by `main` (`calc_pei.py` lines
242-243 and 252-265): in particular
`r500_err_pix = (abs(r500["r500EL_pix"]) + abs(r500["r500EU_pix"])) / 2`. -/
noncomputable def main_pei_data (name : String) (obsid : ℤ) (r500 : R500Info)
    (pei : PeiResult) : List (String × JVal) :=
  let r500_pix := r500.r500_pix
  let r500_err_pix := (|r500.r500EL_pix| + |r500.r500EU_pix|) / 2
  [("name", .str name),
   ("obsid", .int obsid),
   ("r500_pix", .num r500_pix),
   ("r500_err_pix", .num r500_err_pix),
   ("area_total", .num pei.area_total),
   ("area_below", .num pei.area_below),
   ("pei", .num pei.pei_value)]

/-- The whitespace characters stripped by Python's `str.rstrip()` with no
argument (ASCII repertoire). -/
def pyWhitespace : List Char := [' ', '\t', '\n', '\r', '\x0b', '\x0c']

/-- Model of Python `s.rstrip(chars)`: remove from the end of `s` every
trailing character belonging to `strip`. -/
def pyRstrip (s : List Char) (strip : List Char) : List Char :=
  (s.reverse.dropWhile (fun c => strip.contains c)).reverse

/-- The metadata text preprocessing of `main` (`calc_pei.py` line 237):
`open(info_json).read().rstrip().rstrip(",")`. -/
def pei_info_text (s : List Char) : List Char :=
  pyRstrip (pyRstrip s pyWhitespace) [',']

/-- Skip leading JSON whitespace. -/
def skipWs : List Char → List Char
  | [] => []
  | c :: cs => if pyWhitespace.contains c then skipWs cs else c :: cs

/-- Body of a JSON string literal: the characters up to the closing quote,
plus the remainder of the input (no escape sequences, which the metadata
files do not use). -/
def parseJStringBody : List Char → Option (List Char × List Char)
  | [] => none
  | c :: cs =>
    if c = '"' then some ([], cs)
    else match parseJStringBody cs with
      | some (a, r) => some (c :: a, r)
      | none => none

/-- A JSON string literal, starting at an opening quote. -/
def parseJString : List Char → Option (List Char × List Char)
  | c :: cs => if c = '"' then parseJStringBody cs else none
  | [] => none

/-- One `"key": "value"` member of a JSON object. -/
def parseJPair (s : List Char) : Option ((List Char × List Char) × List Char) :=
  match parseJString (skipWs s) with
  | some (k, r1) =>
    match skipWs r1 with
    | ':' :: r2 =>
      match parseJString (skipWs r2) with
      | some (v, r3) => some ((k, v), r3)
      | none => none
    | _ => none
  | none => none

/-- The members of a JSON object after the opening brace: one pair, then
either a comma followed by further members (strict grammar: a comma MUST be
followed by another member, so a trailing comma before the closing brace is
a parse error) or the closing brace.  `fuel` bounds the recursion depth. -/
def parseJMembers : ℕ → List Char → Option (List (List Char × List Char) × List Char)
  | 0, _ => none
  | fuel + 1, s =>
    match parseJPair s with
    | some (kv, r) =>
      match skipWs r with
      | ',' :: r2 =>
        (match parseJMembers fuel r2 with
         | some (kvs, rest) => some (kv :: kvs, rest)
         | none => none)
      | '\x7d' :: r2 => some ([kv], r2)
      | _ => none
    | none => none

/-- Modelled from the spec: a minimal strict JSON parser for the companion
metadata files (flat objects with string keys and string values), standing
in for Python's `json.loads`, which is standard-library code outside this
repository.  Strict JSON rejects a trailing comma before the closing
brace. -/
def jsonLoads (s : List Char) : Option (List (List Char × List Char)) :=
  match skipWs s with
  | '\x7b' :: r =>
    (match skipWs r with
     | '\x7d' :: r2 => if (skipWs r2).isEmpty then some [] else none
     | _ =>
       match parseJMembers (s.length + 1) r with
       | some (kvs, rest) => if (skipWs rest).isEmpty then some kvs else none
       | none => none)
  | _ => none

/-- The metadata loading step of `main` (`calc_pei.py` lines 237-238):
strip the raw text, then parse it as JSON. -/
def pei_load_info (s : List Char) : Option (List (List Char × List Char)) :=
  jsonLoads (pei_info_text s)

/-! ### `calc_coolfunc.py`: the APEC normalization and the config defaults -/

/-- The dimensionless Hubble function `E(z) = sqrt(Om0 (1+z)^3 + (1-Om0))`
of a flat Lambda-CDM cosmology with no radiation, as used by astropy's
`FlatLambdaCDM` (with the default `Tcmb0 = 0`). -/
noncomputable def Efunc (Om0 z : ℝ) : ℝ := Real.sqrt (Om0 * (1 + z) ^ 3 + (1 - Om0))

/-- The dimensionless comoving-distance integral `∫_0^z dt / E(t)`. -/
noncomputable def comovingIntegral (Om0 z : ℝ) : ℝ := ∫ t in (0:ℝ)..z, 1 / Efunc Om0 t

/-- The Hubble distance `c / H0` in Mpc (`c = 299792.458 km/s`, `H0` in
km/s/Mpc). -/
noncomputable def hubbleDistanceMpc (H0 : ℝ) : ℝ := 299792.458 / H0

/-- Modelled from the spec and astropy: the angular diameter distance
`D_A(z) = (c / H0) * (∫_0^z dt / E(t)) / (1 + z)` in Mpc of a flat
Lambda-CDM cosmology (astropy's
`FlatLambdaCDM(H0, Om0).angular_diameter_distance`, library code outside
this repository). -/
noncomputable def angularDiameterDistanceMpc (H0 Om0 z : ℝ) : ℝ :=
  hubbleDistanceMpc H0 * comovingIntegral Om0 z / (1 + z)

/-- Centimeters per megaparsec: `1 pc = (648000 / π) AU`,
`1 AU = 1.495978707e13 cm`. -/
noncomputable def mpcInCm : ℝ := 648000 / Real.pi * 1.495978707e13 * 1e6

/-- Model of `calc_apec_norm(z, H0=71, OmegaM0=0.27)` (`calc_coolfunc.py`
lines 126-136): `DA_cm` is the angular diameter distance converted to cm and
`norm = 1.0e-14 / (4 π (DA_cm (1+z))^2)`. -/
noncomputable def calc_apec_norm (z : ℝ) (H0 : ℝ := 71) (OmegaM0 : ℝ := 0.27) : ℝ :=
  let DA_cm := angularDiameterDistanceMpc H0 OmegaM0 z * mpcInCm
  1.0e-14 / (4 * Real.pi * (DA_cm * (1 + z)) ^ 2)

/-- The cooling-function config file as loaded by `ConfigObj`: optional keys
are `Option`-valued (the numeric ones already parsed, as `as_float` /
`float` do). -/
structure CoolfuncConfig where
  tprofile : String
  abundance : ℚ
  abund_table : Option String
  redshift : ℚ
  nh : ℚ
  energy_low : Option ℚ
  energy_high : Option ℚ
  xspec_script : String
  coolfunc : String

/-- The `config_data` dictionary built by `main` (`calc_coolfunc.py` lines
156-171), after resolving defaults:
`config.get("abund_table", "grsa")`, `float(config.get("energy_low", 0.7))`,
`float(config.get("energy_high", 0.7))`. -/
structure ConfigData where
  prog_name : String
  cur_date : String
  tprofile : String
  abundance : ℚ
  abund_table : String
  redshift : ℚ
  nh : ℚ
  energy_low : ℚ
  energy_high : ℚ
  xspec_script : String
  coolfunc : String
  apec_norm : ℝ

/-- Model of the default resolution in `main` (`calc_coolfunc.py` lines
156-171). -/
noncomputable def buildConfigData (prog_name cur_date : String) (config : CoolfuncConfig) :
    ConfigData :=
  { prog_name := prog_name
    cur_date := cur_date
    tprofile := config.tprofile
    abundance := config.abundance
    abund_table := config.abund_table.getD "grsa"
    redshift := config.redshift
    nh := config.nh
    energy_low := config.energy_low.getD 0.7
    energy_high := config.energy_high.getD 0.7
    xspec_script := config.xspec_script
    coolfunc := config.coolfunc
    apec_norm := calc_apec_norm config.redshift }

/-- The string fields substituted into the XSPEC script template, after the
host language's float-to-string conversion (whose exact format the spec
leaves open; it is abstracted as the functions `fq`/`fr` below). -/
structure XspecFields where
  prog_name : String
  cur_date : String
  tprofile : String
  abundance : String
  abund_table : String
  redshift : String
  nh : String
  energy_low : String
  energy_high : String
  xspec_script : String
  coolfunc : String
  apec_norm : String

/-- Render a `ConfigData` record to the strings substituted by the `%`
formatting in `gen_xspec_script`, given a rational-to-string conversion `fq`
and a real-to-string conversion `fr` (standing for Python's `str` on
floats). -/
noncomputable def configDataFields (fq : ℚ → String) (fr : ℝ → String)
    (d : ConfigData) : XspecFields :=
  { prog_name := d.prog_name
    cur_date := d.cur_date
    tprofile := d.tprofile
    abundance := fq d.abundance
    abund_table := d.abund_table
    redshift := fq d.redshift
    nh := fq d.nh
    energy_low := fq d.energy_low
    energy_high := fq d.energy_high
    xspec_script := d.xspec_script
    coolfunc := d.coolfunc
    apec_norm := fr d.apec_norm }

/-- Model of the script text produced by `gen_xspec_script`
(`calc_coolfunc.py` lines 60-123): the template with every `%(...)s` hole
replaced by the corresponding field (so the doubled `%%` of the Python
template appears here as a single `%`). -/
def gen_xspec_script (d : XspecFields) : String :=
  "\n# Calculate the cooling function profile w.r.t the temperature profile.\n" ++
  "#\n# Generated by: " ++ d.prog_name ++ "\n# Date: " ++ d.cur_date ++ "\n\n" ++
  "# debug (off)\nchatter 0\n\n" ++
  "set xs_return_results 1\nset xs_echo_script 0\n# set tcl_precision 12\n\n" ++
  "query yes\nabund " ++ d.abund_table ++ "\n" ++
  "dummyrsp 0.01 100.0 4096 linear\n# use model 'wabs*apec'\n" ++
  "model wabs*apec & " ++ d.nh ++ " & 1.0 & " ++ d.abundance ++ " & " ++
  d.redshift ++ " & " ++ d.apec_norm ++ " & /*\n\n" ++
  "# input and output files\nset tpro_fn \"" ++ d.tprofile ++ "\"\n" ++
  "set cf_fn \"" ++ d.coolfunc ++ "\"\n" ++
  "if \x7b [ file exists $cf_fn ] \x7d \x7b\n    exec rm -fv $cf_fn\n\x7d\n\n" ++
  "# open files\nset tpro_fd [ open $tpro_fn r ]\nset cf_fd [ open $cf_fn w ]\n\n" ++
  "# output file header\nputs $cf_fd \"# radius    flux(" ++ d.energy_low ++
  "-" ++ d.energy_high ++ ")\"\n\n" ++
  "# read data from temperature profile line by line\n" ++
  "while \x7b [ gets $tpro_fd line ] != -1 \x7d \x7b\n" ++
  "    if \x7b[ regexp -- \x7b^\\s*#\x7d $line ] == 1\x7d \x7b\n" ++
  "        # ignore comment line\n        continue\n    \x7d\n" ++
  "    scan $line \"%f %f\" radius temp_val\n" ++
  "    #puts \"radius: $radius, temperature: $temp_val\"\n" ++
  "    # set temperature value\n    newpar 2 $temp_val\n" ++
  "    flux " ++ d.energy_low ++ " " ++ d.energy_high ++ "\n" ++
  "    tclout flux 1\n" ++
  "    scan $xspec_tclout \"%f %f %f %f\" _ _ _ cf_data\n" ++
  "    #puts \"cf_data: $cf_data\"\n" ++
  "    puts $cf_fd \"$radius    $cf_data\"\n\x7d\n\n" ++
  "# close & exit\nclose $tpro_fd\nclose $cf_fd\ntclexit\n"

/-! ### Shared concrete inputs used by witnesses and counterexamples -/

/-- Example frequency array: powers of ten, so that the log-transformed
abscissae are exactly `[-2, -1, 0, 1]`. -/
noncomputable def peiFreqsEx : List ℝ := [1 / 100, 1 / 10, 1, 10]

/-- Example power array: powers of ten, so that the log-transformed sample
values are exactly `[2, 1, 0, -1]`. -/
noncomputable def peiPsdEx : List ℝ := [100, 10, 1, 1 / 10]

/-- Perfectly flat example power array. -/
noncomputable def peiPsdFlatEx : List ℝ := [1, 1, 1, 1]

/-- Example R500 value: `0.35 * r500Ex = 100`, so the PEI window in log
space is exactly `[-2, -1]`. -/
noncomputable def r500Ex : ℝ := 2000 / 7

/-- A minimal metadata JSON text without a trailing comma:
the characters of `\x7b"Src": "A"\x7d`. -/
def infoNoComma : List Char :=
  ['\x7b', '"', 'S', 'r', 'c', '"', ':', ' ', '"', 'A', '"', '\x7d']

/-- The same metadata JSON text with a trailing comma before the final
closing brace: the characters of `\x7b"Src": "A",\x7d`. -/
def infoCommaBeforeBrace : List Char :=
  ['\x7b', '"', 'S', 'r', 'c', '"', ':', ' ', '"', 'A', '"', ',', '\x7d']

/-- Example cooling-function config, mirroring the sample config of
`calc_coolfunc.py` but omitting `abund_table` and `energy_high`. -/
def coolfuncConfigEx : CoolfuncConfig :=
  { tprofile := "tprofile.txt"
    abundance := 0.5
    abund_table := none
    redshift := 0.0137
    nh := 0.03
    energy_low := some 0.7
    energy_high := none
    xspec_script := "coolfunc.xcm"
    coolfunc := "coolfunc_profile.txt" }

/-- An example rational-to-string rendering (the claims about the config
defaults hold for every rendering). -/
def fqEx : ℚ → String := fun _ => "0.7"

/-- An example real-to-string rendering. -/
def frEx : ℝ → String := fun _ => "1e-17"

/-- Example heap holding two one-dimensional input arrays. -/
noncomputable def npHeapEx : NpHeap := ⟨[NpValue.arr1 [1, 2], NpValue.arr1 [3, 4]]⟩

/-! ## Helper lemmas -/

theorem linspace_length (a b : ℝ) (n : ℕ) : (linspace a b n).length = n := by
  unfold linspace
  rcases n with _ | _ | n <;> simp

theorem linspace_headD (a b : ℝ) {n : ℕ} (hn : 1 ≤ n) : (linspace a b n).headD 0 = a := by
  unfold linspace
  rcases n with _ | _ | n
  · omega
  · simp
  · rw [if_neg (by omega), if_neg (by omega), List.range_succ_eq_map]
    simp

theorem linspace_getLastD (a b : ℝ) {n : ℕ} (hn : 2 ≤ n) :
    (linspace a b n).getLastD 0 = b := by
  unfold linspace
  rcases n with _ | _ | n
  · omega
  · omega
  · rw [if_neg (by omega), if_neg (by omega), List.range_succ, List.map_append,
      List.map_cons, List.map_nil, List.getLastD_concat]
    have hne : ((n : ℝ) + 1) ≠ 0 := by positivity
    push_cast
    field_simp

theorem linspace_chain (a b : ℝ) {n : ℕ} (hab : a ≤ b) :
    List.Chain' (· ≤ ·) (linspace a b n) := by
  unfold linspace
  rcases n with _ | _ | n
  · simp
  · simp
  · rw [if_neg (by omega), if_neg (by omega)]
    rw [List.chain'_map]
    rw [show n + 2 = (n + 1) + 1 by omega, List.chain'_range_succ]
    intro m _
    have hd : (0 : ℝ) < (((n + 1 + 1 : ℕ) : ℝ) - 1) := by
      push_cast
      have : (0 : ℝ) ≤ (n : ℝ) := Nat.cast_nonneg n
      linarith
    apply add_le_add_left
    rw [div_le_div_iff₀ hd hd]
    have hm : ((m : ℕ) : ℝ) ≤ ((m.succ : ℕ) : ℝ) := by exact_mod_cast Nat.le_succ m
    nlinarith [mul_nonneg (mul_nonneg (sub_nonneg.2 hab) (le_of_lt hd))
      (sub_nonneg.2 hm)]

theorem mem_linspace_bounds {a b t : ℝ} {n : ℕ} (hab : a ≤ b)
    (ht : t ∈ linspace a b n) : a ≤ t ∧ t ≤ b := by
  unfold linspace at ht
  rcases n with _ | _ | n
  · simp at ht
  · simp at ht; subst ht; exact ⟨le_rfl, hab⟩
  · rw [if_neg (by omega), if_neg (by omega)] at ht
    obtain ⟨i, hi, rfl⟩ := List.mem_map.1 ht
    rw [List.mem_range] at hi
    have hd : (0 : ℝ) < (((n + 1 + 1 : ℕ) : ℝ) - 1) := by
      push_cast
      have : (0 : ℝ) ≤ (n : ℝ) := Nat.cast_nonneg n
      linarith
    have hi' : ((i : ℕ) : ℝ) ≤ (((n + 1 + 1 : ℕ) : ℝ) - 1) := by
      have h1 : ((i : ℕ) : ℝ) ≤ ((n + 1 : ℕ) : ℝ) := by
        exact_mod_cast Nat.le_of_lt_succ hi
      push_cast at h1 ⊢
      linarith
    have hnum0 : (0 : ℝ) ≤ (b - a) * (i : ℝ) :=
      mul_nonneg (by linarith) (Nat.cast_nonneg i)
    constructor
    · have h0 : (0 : ℝ) ≤ (b - a) * (i : ℝ) / ((((n + 1 + 1 : ℕ)) : ℝ) - 1) :=
        div_nonneg hnum0 (le_of_lt hd)
      linarith
    · have hle : (b - a) * (i : ℝ) / ((((n + 1 + 1 : ℕ)) : ℝ) - 1) ≤ b - a := by
        rw [div_le_iff₀ hd]
        have := mul_le_mul_of_nonneg_left hi' (by linarith : (0:ℝ) ≤ b - a)
        linarith
      linarith

theorem foldl_min_le_init (l : List ℝ) (acc : ℝ) : l.foldl min acc ≤ acc := by
  induction l generalizing acc with
  | nil => simp
  | cons a t ih => exact le_trans (ih (min acc a)) (min_le_left _ _)

theorem foldl_min_le_mem {l : List ℝ} {x : ℝ} (hx : x ∈ l) (acc : ℝ) :
    l.foldl min acc ≤ x := by
  induction l generalizing acc with
  | nil => simp at hx
  | cons a t ih =>
    rcases List.mem_cons.1 hx with rfl | hx'
    · exact le_trans (foldl_min_le_init t (min acc x)) (min_le_right _ _)
    · exact ih hx' (min acc a)

theorem init_le_foldl_max (l : List ℝ) (acc : ℝ) : acc ≤ l.foldl max acc := by
  induction l generalizing acc with
  | nil => simp
  | cons a t ih => exact le_trans (le_max_left _ _) (ih (max acc a))

theorem mem_le_foldl_max {l : List ℝ} {x : ℝ} (hx : x ∈ l) (acc : ℝ) :
    x ≤ l.foldl max acc := by
  induction l generalizing acc with
  | nil => simp at hx
  | cons a t ih =>
    rcases List.mem_cons.1 hx with rfl | hx'
    · exact le_trans (le_max_right _ _) (init_le_foldl_max t (max acc x))
    · exact ih hx' (max acc a)

theorem listMin_le {l : List ℝ} {x : ℝ} (hx : x ∈ l) : listMin l ≤ x := by
  cases l with
  | nil => simp at hx
  | cons a t =>
    rcases List.mem_cons.1 hx with rfl | hx'
    · exact foldl_min_le_init t x
    · exact foldl_min_le_mem hx' a

theorem le_listMax {l : List ℝ} {x : ℝ} (hx : x ∈ l) : x ≤ listMax l := by
  cases l with
  | nil => simp at hx
  | cons a t =>
    rcases List.mem_cons.1 hx with rfl | hx'
    · exact init_le_foldl_max t x
    · exact mem_le_foldl_max hx' a

theorem listMin_le_listMax {l : List ℝ} (h : l ≠ []) : listMin l ≤ listMax l := by
  cases l with
  | nil => exact absurd rfl h
  | cons a t =>
    exact le_trans (listMin_le (List.mem_cons_self a t)) (le_listMax (List.mem_cons_self a t))

theorem foldl_min_mem (l : List ℝ) (acc : ℝ) :
    l.foldl min acc = acc ∨ l.foldl min acc ∈ l := by
  induction l generalizing acc with
  | nil => left; rfl
  | cons a t ih =>
    rcases ih (min acc a) with h | h
    · rw [List.foldl_cons, h]
      rcases le_total acc a with hle | hle
      · left; exact min_eq_left hle
      · right; rw [min_eq_right hle]; exact List.mem_cons_self a t
    · right; exact List.mem_cons_of_mem _ h

theorem foldl_max_mem (l : List ℝ) (acc : ℝ) :
    l.foldl max acc = acc ∨ l.foldl max acc ∈ l := by
  induction l generalizing acc with
  | nil => left; rfl
  | cons a t ih =>
    rcases ih (max acc a) with h | h
    · rw [List.foldl_cons, h]
      rcases le_total acc a with hle | hle
      · right; rw [max_eq_right hle]; exact List.mem_cons_self a t
      · left; exact max_eq_left hle
    · right; exact List.mem_cons_of_mem _ h

theorem listMin_mem {l : List ℝ} (h : l ≠ []) : listMin l ∈ l := by
  cases l with
  | nil => exact absurd rfl h
  | cons a t =>
    show t.foldl min a ∈ a :: t
    rcases foldl_min_mem t a with h' | h'
    · rw [h']; exact List.mem_cons_self a t
    · exact List.mem_cons_of_mem _ h'

theorem listMax_mem {l : List ℝ} (h : l ≠ []) : listMax l ∈ l := by
  cases l with
  | nil => exact absurd rfl h
  | cons a t =>
    show t.foldl max a ∈ a :: t
    rcases foldl_max_mem t a with h' | h'
    · rw [h']; exact List.mem_cons_self a t
    · exact List.mem_cons_of_mem _ h'

theorem listMin_const {l : List ℝ} {c : ℝ} (h : ∀ x ∈ l, x = c) (hne : l ≠ []) :
    listMin l = c := h _ (listMin_mem hne)

theorem listMax_const {l : List ℝ} {c : ℝ} (h : ∀ x ∈ l, x = c) (hne : l ≠ []) :
    listMax l = c := h _ (listMax_mem hne)

theorem trapz_zero : ∀ (ys xs : List ℝ), (∀ y ∈ ys, y = 0) → trapz ys xs = 0
  | y1 :: y2 :: ys, x1 :: x2 :: xs, h => by
    have h1 : y1 = 0 := h _ (by simp)
    have h2 : y2 = 0 := h _ (by simp)
    have hrec := trapz_zero (y2 :: ys) (x2 :: xs) (fun y hy => h y (List.mem_cons_of_mem _ hy))
    show (x2 - x1) * (y1 + y2) / 2 + trapz (y2 :: ys) (x2 :: xs) = 0
    rw [hrec, h1, h2]; ring
  | [], _, _ => by simp [trapz]
  | [_], _, _ => by simp [trapz]
  | _ :: _ :: _, [], _ => by simp [trapz]
  | _ :: _ :: _, [_], _ => by simp [trapz]

theorem trapz_bounds : ∀ (ys xs : List ℝ) (M : ℝ), ys.length = xs.length →
    List.Chain' (· ≤ ·) xs → (∀ y ∈ ys, 0 ≤ y) → (∀ y ∈ ys, y ≤ M) →
    0 ≤ trapz ys xs ∧ trapz ys xs ≤ (xs.getLastD 0 - xs.headD 0) * M
  | y1 :: y2 :: ys, x1 :: x2 :: xs, M, hlen, hch, h0, hM => by
    have hx12 : x1 ≤ x2 := (List.chain'_cons.1 hch).1
    have hrec := trapz_bounds (y2 :: ys) (x2 :: xs) M (by simpa using hlen)
      (List.chain'_cons.1 hch).2
      (fun y hy => h0 y (List.mem_cons_of_mem _ hy))
      (fun y hy => hM y (List.mem_cons_of_mem _ hy))
    have h01 : 0 ≤ y1 := h0 _ (by simp)
    have h02 : 0 ≤ y2 := h0 _ (by simp)
    have hM1 : y1 ≤ M := hM _ (by simp)
    have hM2 : y2 ≤ M := hM _ (by simp)
    have hterm0 : 0 ≤ (x2 - x1) * (y1 + y2) / 2 := by
      apply div_nonneg _ (by norm_num)
      exact mul_nonneg (by linarith) (by linarith)
    have htermM : (x2 - x1) * (y1 + y2) / 2 ≤ (x2 - x1) * M := by
      rw [div_le_iff₀ (by norm_num : (0:ℝ) < 2)]
      have : (x2 - x1) * (y1 + y2) ≤ (x2 - x1) * (M + M) :=
        mul_le_mul_of_nonneg_left (by linarith) (by linarith)
      linarith
    have hlast : (x2 :: xs).getLastD 0 = (x1 :: x2 :: xs).getLastD 0 := by
      simp [List.getLastD_cons]
    constructor
    · show 0 ≤ (x2 - x1) * (y1 + y2) / 2 + trapz (y2 :: ys) (x2 :: xs)
      linarith [hrec.1]
    · show (x2 - x1) * (y1 + y2) / 2 + trapz (y2 :: ys) (x2 :: xs) ≤ _
      have h2 := hrec.2
      rw [hlast] at h2
      simp only [List.headD_cons] at h2 ⊢
      linarith
  | [], xs, M, hlen, _, _, _ => by
    have hx : xs = [] := by cases xs <;> simp_all
    subst hx
    simp [trapz]
  | [y], xs, M, hlen, _, _, _ => by
    cases xs with
    | nil => simp at hlen
    | cons x xs' =>
      cases xs' with
      | nil => simp [trapz]
      | cons x2 xs'' => simp at hlen
  | y1 :: y2 :: ys, [], M, hlen, _, _, _ => by simp at hlen
  | y1 :: y2 :: ys, [x], M, hlen, _, _, _ => by simp at hlen

theorem trapz_eq_spec_trapezoid : ∀ (ys xs : List ℝ),
    trapz ys xs = spec_trapezoid xs ys
  | y1 :: y2 :: ys, x1 :: x2 :: xs => by
    have hrec := trapz_eq_spec_trapezoid (y2 :: ys) (x2 :: xs)
    show (x2 - x1) * (y1 + y2) / 2 + trapz (y2 :: ys) (x2 :: xs) = _
    rw [hrec]
    simp [spec_trapezoid]
  | [], xs => by cases xs <;> simp [trapz, spec_trapezoid]
  | [y], xs => by
    cases xs with
    | nil => simp [trapz, spec_trapezoid]
    | cons x xs' => simp [trapz, spec_trapezoid]
  | y1 :: y2 :: ys, [] => by simp [trapz, spec_trapezoid]
  | y1 :: y2 :: ys, [x] => by simp [trapz, spec_trapezoid]

theorem interpAt_const {xs ys : List ℝ} {c : ℝ} (hlen : 2 ≤ xs.length)
    (hys : ys.length = xs.length) (hc : ∀ y ∈ ys, y = c) (t : ℝ) :
    interpAt xs ys t = c := by
  have hi_ub : min (max (searchsortedLeft xs t) 1) (xs.length - 1) ≤ xs.length - 1 :=
    min_le_right _ _
  have hi_lb : 1 ≤ min (max (searchsortedLeft xs t) 1) (xs.length - 1) :=
    le_min (le_max_right _ _) (by omega)
  set i := min (max (searchsortedLeft xs t) 1) (xs.length - 1) with hidef
  have hi_lt : i < ys.length := by omega
  have him1_lt : i - 1 < ys.length := by omega
  have hyi : ys.getD i 0 = c := by
    rw [List.getD_eq_getElem ys 0 hi_lt]
    exact hc _ (List.getElem_mem hi_lt)
  have hyim1 : ys.getD (i - 1) 0 = c := by
    rw [List.getD_eq_getElem ys 0 him1_lt]
    exact hc _ (List.getElem_mem him1_lt)
  show (ys.getD i 0 - ys.getD (i - 1) 0) / (xs.getD i 0 - xs.getD (i - 1) 0) *
      (t - xs.getD (i - 1) 0) + ys.getD (i - 1) 0 = c
  rw [hyi, hyim1]
  simp

theorem pei_y_length (freqs psd1d : List ℝ) :
    (pei_y freqs psd1d).length = (pei_x freqs psd1d).length := by
  simp [pei_x, pei_y]

theorem y_interp_length (freqs psd1d : List ℝ) (r500 : ℝ) (n : ℕ) :
    (y_interp freqs psd1d r500 n).length = n := by
  rw [y_interp, List.length_map, x_interp, linspace_length]

theorem calc_pei_eq_some {freqs psd1d : List ℝ} {r500 : ℝ} {n : ℕ}
    (h : peiCond freqs psd1d r500 n) :
    calc_pei freqs psd1d r500 n =
      some ({ area_total := area_total freqs psd1d r500 n,
              area_below := area_below freqs psd1d r500 n,
              pei_value := pei_value freqs psd1d r500 n },
            (x_interp r500 n).zip (y_interp freqs psd1d r500 n)) := by
  rw [calc_pei, if_pos h]

theorem peiCond_of_eq_some {freqs psd1d : List ℝ} {r500 : ℝ} {n : ℕ}
    {v : PeiResult × List (ℝ × ℝ)} (h : calc_pei freqs psd1d r500 n = some v) :
    peiCond freqs psd1d r500 n := by
  by_contra hc
  rw [calc_pei, if_neg hc] at h
  exact Option.noConfusion h

theorem peiCond_of_isSome {freqs psd1d : List ℝ} {r500 : ℝ} {n : ℕ}
    (h : (calc_pei freqs psd1d r500 n).isSome) : peiCond freqs psd1d r500 n := by
  by_contra hc
  rw [calc_pei, if_neg hc] at h
  exact Bool.noConfusion h

theorem logb_ten_zpow (n : ℤ) : Real.logb 10 ((10 : ℝ) ^ n) = n := by
  rw [Real.logb, Real.log_zpow, mul_div_assoc,
    div_self (Real.log_ne_zero_of_pos_of_ne_one (by norm_num) (by norm_num)), mul_one]

theorem pei_mask_pairs_ex :
    pei_mask_pairs peiFreqsEx peiPsdEx = [(1/100, 100), (1/10, 10), (1, 1), (10, 1/10)] := by
  have hz : peiFreqsEx.zip peiPsdEx = [(1/100, 100), (1/10, 10), (1, 1), (10, 1/10)] := by
    simp [peiFreqsEx, peiPsdEx]
  rw [pei_mask_pairs, hz, List.filter_eq_self.mpr]
  intro p hp
  fin_cases hp <;> exact decide_eq_true (by norm_num)

theorem pei_mask_pairs_flat :
    pei_mask_pairs peiFreqsEx peiPsdFlatEx = [(1/100, 1), (1/10, 1), (1, 1), (10, 1)] := by
  have hz : peiFreqsEx.zip peiPsdFlatEx = [(1/100, 1), (1/10, 1), (1, 1), (10, 1)] := by
    simp [peiFreqsEx, peiPsdFlatEx]
  rw [pei_mask_pairs, hz, List.filter_eq_self.mpr]
  intro p hp
  fin_cases hp <;> exact decide_eq_true (by norm_num)

theorem logb_ten_inv_hundred : Real.logb 10 ((1 : ℝ) / 100) = -2 := by
  rw [show (1 : ℝ) / 100 = (10 : ℝ) ^ (-2 : ℤ) by norm_num, logb_ten_zpow]
  norm_num

theorem logb_ten_inv_ten : Real.logb 10 ((1 : ℝ) / 10) = -1 := by
  rw [show (1 : ℝ) / 10 = (10 : ℝ) ^ (-1 : ℤ) by norm_num, logb_ten_zpow]
  norm_num

theorem logb_ten_hundred : Real.logb 10 (100 : ℝ) = 2 := by
  rw [show (100 : ℝ) = (10 : ℝ) ^ (2 : ℤ) by norm_num, logb_ten_zpow]
  norm_num

theorem logb_ten_ten : Real.logb 10 (10 : ℝ) = 1 :=
  Real.logb_self_eq_one (by norm_num)

theorem pei_x_ex : pei_x peiFreqsEx peiPsdEx = [-2, -1, 0, 1] := by
  rw [pei_x, pei_mask_pairs_ex]
  simp only [List.map_cons, List.map_nil]
  norm_num [logb_ten_inv_hundred, logb_ten_inv_ten, logb_ten_ten]

theorem pei_y_ex : pei_y peiFreqsEx peiPsdEx = [2, 1, 0, -1] := by
  rw [pei_y, pei_mask_pairs_ex]
  simp only [List.map_cons, List.map_nil]
  norm_num [logb_ten_hundred, logb_ten_ten, logb_ten_inv_ten]

theorem pei_x_flat : pei_x peiFreqsEx peiPsdFlatEx = [-2, -1, 0, 1] := by
  rw [pei_x, pei_mask_pairs_flat]
  simp only [List.map_cons, List.map_nil]
  norm_num [logb_ten_inv_hundred, logb_ten_inv_ten, logb_ten_ten]

theorem pei_xmin_ex : pei_xmin r500Ex = -2 := by
  rw [pei_xmin, pei_fmin, show (0.350 : ℝ) * r500Ex = 100 by rw [r500Ex]; norm_num,
    show (1.0 : ℝ) / 100 = 1 / 100 by norm_num, logb_ten_inv_hundred]

theorem pei_xmax_ex : pei_xmax r500Ex = -1 := by
  rw [pei_xmax, pei_fmax, show (0.035 : ℝ) * r500Ex = 10 by rw [r500Ex]; norm_num,
    show (1.0 : ℝ) / 10 = 1 / 10 by norm_num, logb_ten_inv_ten]

theorem peiCond_ex {psd1d : List ℝ} (hx : pei_x peiFreqsEx psd1d = [-2, -1, 0, 1]) (n : ℕ) :
    peiCond peiFreqsEx psd1d r500Ex n := by
  constructor
  · rw [hx]; norm_num
  · intro t ht
    rw [x_interp, pei_xmin_ex, pei_xmax_ex] at ht
    have hb := mem_linspace_bounds (by norm_num : (-2 : ℝ) ≤ -1) ht
    rw [hx]
    refine ⟨by simpa using hb.1, ?_⟩
    show t ≤ ([(-2 : ℝ), -1, 0, 1]).getLastD 0
    have : ([(-2 : ℝ), -1, 0, 1]).getLastD 0 = 1 := rfl
    rw [this]
    linarith [hb.2]

theorem x_interp_ex (n : ℕ) : x_interp r500Ex n = linspace (-2) (-1) n := by
  rw [x_interp, pei_xmin_ex, pei_xmax_ex]

theorem linspace_two : linspace (-2 : ℝ) (-1) 2 = [-2, -1] := by
  unfold linspace
  rw [if_neg (by omega), if_neg (by omega)]
  norm_num [List.range_succ]

theorem searchsorted_ex_neg2 : searchsortedLeft [-2, -1, 0, 1] (-2 : ℝ) = 0 := by
  have d1 : decide ((-2 : ℝ) < -2) = false := decide_eq_false (by norm_num)
  rw [searchsortedLeft]
  rw [List.takeWhile_cons]
  simp [d1]

theorem searchsorted_ex_neg1 : searchsortedLeft [-2, -1, 0, 1] (-1 : ℝ) = 1 := by
  have d1 : decide ((-2 : ℝ) < -1) = true := decide_eq_true (by norm_num)
  have d2 : decide ((-1 : ℝ) < -1) = false := decide_eq_false (by norm_num)
  rw [searchsortedLeft]
  rw [List.takeWhile_cons, d1, List.takeWhile_cons, d2]
  rfl

theorem interpAt_ex_neg2 : interpAt [-2, -1, 0, 1] [2, 1, 0, -1] (-2 : ℝ) = 2 := by
  show ([(2 : ℝ), 1, 0, -1].getD (min (max (searchsortedLeft [-2, -1, 0, 1] (-2 : ℝ)) 1)
      (([(-2 : ℝ), -1, 0, 1]).length - 1)) 0 - _) / _ * _ + _ = 2
  rw [searchsorted_ex_neg2]
  norm_num

theorem interpAt_ex_neg1 : interpAt [-2, -1, 0, 1] [2, 1, 0, -1] (-1 : ℝ) = 1 := by
  show ([(2 : ℝ), 1, 0, -1].getD (min (max (searchsortedLeft [-2, -1, 0, 1] (-1 : ℝ)) 1)
      (([(-2 : ℝ), -1, 0, 1]).length - 1)) 0 - _) / _ * _ + _ = 1
  rw [searchsorted_ex_neg1]
  norm_num

theorem y_interp_ex2 : y_interp peiFreqsEx peiPsdEx r500Ex 2 = [2, 1] := by
  rw [y_interp, x_interp_ex, linspace_two, pei_x_ex, pei_y_ex]
  simp only [List.map_cons, List.map_nil, interpAt_ex_neg2, interpAt_ex_neg1]

theorem calc_pei_ex2 :
    calc_pei peiFreqsEx peiPsdEx r500Ex 2 =
      some ({ area_total := 1, area_below := 1/2, pei_value := 1/2 },
            [(-2, 2), (-1, 1)]) := by
  rw [calc_pei_eq_some (peiCond_ex pei_x_ex 2)]
  have hyi := y_interp_ex2
  have hxi : x_interp r500Ex 2 = [-2, -1] := by rw [x_interp_ex, linspace_two]
  have hymin : pei_ymin peiFreqsEx peiPsdEx r500Ex 2 = 1 := by
    rw [pei_ymin, hyi]
    show min 2 1 = (1 : ℝ)
    norm_num
  have hymax : pei_ymax peiFreqsEx peiPsdEx r500Ex 2 = 2 := by
    rw [pei_ymax, hyi]
    show max 2 1 = (2 : ℝ)
    norm_num
  have hat : area_total peiFreqsEx peiPsdEx r500Ex 2 = 1 := by
    rw [area_total, hymin, hymax, pei_xmin_ex, pei_xmax_ex]
    norm_num
  have hab : area_below peiFreqsEx peiPsdEx r500Ex 2 = 1/2 := by
    rw [area_below, hyi, hymin, hxi]
    show (-1 - (-2 : ℝ)) * ((2 - 1) + (1 - 1)) / 2 + trapz [1 - 1] [-1] = 1/2
    have : trapz [(1 : ℝ) - 1] [-1] = 0 := by simp [trapz]
    rw [this]
    norm_num
  have hpv : pei_value peiFreqsEx peiPsdEx r500Ex 2 = 1/2 := by
    rw [pei_value, hat, hab]
    norm_num
  rw [hat, hab, hpv, hxi, hyi]
  norm_num

theorem y_interp_flat {freqs psd1d : List ℝ} {c : ℝ}
    (h2 : 2 ≤ (pei_x freqs psd1d).length) (hc : ∀ v ∈ psd1d, v = c)
    (r500 : ℝ) (n : ℕ) :
    ∀ yv ∈ y_interp freqs psd1d r500 n, yv = Real.logb 10 c := by
  intro yv hyv
  rw [y_interp] at hyv
  obtain ⟨t, _, rfl⟩ := List.mem_map.1 hyv
  apply interpAt_const h2 (pei_y_length freqs psd1d) _ t
  intro y hy
  rw [pei_y] at hy
  obtain ⟨p, hp, rfl⟩ := List.mem_map.1 hy
  have hmem : p ∈ freqs.zip psd1d := (List.mem_filter.1 hp).1
  have hsnd : p.2 ∈ psd1d := by
    have := List.of_mem_zip (show (p.1, p.2) ∈ freqs.zip psd1d from Prod.mk.eta ▸ hmem)
    exact this.2
  rw [hc _ hsnd]

theorem calc_pei_flat_aux {freqs psd1d : List ℝ} {c : ℝ} (hc : ∀ v ∈ psd1d, v = c)
    {r500 : ℝ} {n : ℕ} (hcond : peiCond freqs psd1d r500 n) :
    area_total freqs psd1d r500 n = 0 ∧ area_below freqs psd1d r500 n = 0 ∧
      pei_value freqs psd1d r500 n = 0 := by
  have hflat := y_interp_flat hcond.1 hc r500 n
  have hdiff : pei_ymax freqs psd1d r500 n - pei_ymin freqs psd1d r500 n = 0 := by
    rcases eq_or_ne (y_interp freqs psd1d r500 n) [] with hnil | hne
    · rw [pei_ymax, pei_ymin, hnil]
      show listMax [] - listMin [] = 0
      norm_num [listMin, listMax]
    · rw [pei_ymax, pei_ymin, listMax_const hflat hne, listMin_const hflat hne]
      ring
  have hat : area_total freqs psd1d r500 n = 0 := by
    rw [area_total, hdiff, mul_zero]
  have hab : area_below freqs psd1d r500 n = 0 := by
    rw [area_below]
    apply trapz_zero
    intro y hy
    obtain ⟨v, hv, rfl⟩ := List.mem_map.1 hy
    rcases eq_or_ne (y_interp freqs psd1d r500 n) [] with hnil | hne
    · rw [hnil] at hv; simp at hv
    · rw [hflat v hv, pei_ymin, listMin_const hflat hne]
      ring
  exact ⟨hat, hab, by rw [pei_value, hat, hab]; norm_num⟩

theorem calc_pei_len_aux {freqs psd1d : List ℝ} {r500 : ℝ} {n : ℕ}
    (hcond : peiCond freqs psd1d r500 n) :
    (calc_pei freqs psd1d r500 n).map (fun v => v.2.length) = some n := by
  rw [calc_pei_eq_some hcond, Option.map_some']
  have : ((x_interp r500 n).zip (y_interp freqs psd1d r500 n)).length = n := by
    rw [List.length_zip, y_interp_length, x_interp, linspace_length, min_self]
  simp [this]

theorem pei_xmax_eq {r500 : ℝ} (hr : 0 < r500) : pei_xmax r500 = pei_xmin r500 + 1 := by
  rw [pei_xmax, pei_xmin, pei_fmax, pei_fmin]
  have hfm : (0:ℝ) < 1.0 / (0.350 * r500) := by positivity
  have h10 : (1.0 : ℝ) / (0.035 * r500) = 10 * (1.0 / (0.350 * r500)) := by
    have hr' : r500 ≠ 0 := ne_of_gt hr
    field_simp
    ring
  rw [h10, Real.logb_mul (by norm_num) (ne_of_gt hfm), logb_ten_ten]
  ring

/-! ### Lemmas about the APEC normalization -/

theorem Efunc_inv_pos {Om0 t : ℝ} (h0 : 0 ≤ Om0) (h1 : Om0 < 1) (ht : 0 ≤ t) :
    0 < 1 / Efunc Om0 t := by
  have hin : 0 < Om0 * (1 + t) ^ 3 + (1 - Om0) := by
    have h3 : (0:ℝ) ≤ (1 + t) ^ 3 := by positivity
    nlinarith
  rw [Efunc]
  exact one_div_pos.mpr (Real.sqrt_pos.mpr hin)

theorem continuousOn_Efunc_inv {Om0 : ℝ} (h0 : 0 ≤ Om0) (h1 : Om0 < 1) {s : Set ℝ}
    (hs : ∀ t ∈ s, 0 ≤ t) : ContinuousOn (fun t => 1 / Efunc Om0 t) s := by
  apply ContinuousOn.div continuousOn_const
  · apply Continuous.continuousOn
    have : Continuous fun t : ℝ => Om0 * (1 + t) ^ 3 + (1 - Om0) := by continuity
    exact Real.continuous_sqrt.comp this
  · intro t ht
    have h3 : (0:ℝ) ≤ (1 + t) ^ 3 := by
      have := hs t ht
      positivity
    have hin : 0 < Om0 * (1 + t) ^ 3 + (1 - Om0) := by nlinarith
    exact ne_of_gt (Real.sqrt_pos.mpr hin)

theorem Efunc_inv_intervalIntegrable {a b : ℝ} (ha : 0 ≤ a) (hb : 0 ≤ b) :
    IntervalIntegrable (fun t => 1 / Efunc 0.27 t) MeasureTheory.volume a b := by
  apply ContinuousOn.intervalIntegrable
  apply continuousOn_Efunc_inv (by norm_num) (by norm_num)
  intro t ht
  have h1 : min a b ≤ t := (Set.mem_Icc.1 ht).1
  exact le_trans (le_min ha hb) h1

theorem comovingIntegral_pos {z : ℝ} (hz : 0 < z) : 0 < comovingIntegral 0.27 z := by
  rw [comovingIntegral]
  apply intervalIntegral.intervalIntegral_pos_of_pos_on
  · exact Efunc_inv_intervalIntegrable le_rfl (le_of_lt hz)
  · intro x hx
    exact Efunc_inv_pos (by norm_num) (by norm_num) (le_of_lt hx.1)
  · exact hz

theorem comovingIntegral_lt {z1 z2 : ℝ} (h1 : 0 < z1) (h12 : z1 < z2) :
    comovingIntegral 0.27 z1 < comovingIntegral 0.27 z2 := by
  have hi1 := Efunc_inv_intervalIntegrable le_rfl (le_of_lt h1)
  have hi2 := Efunc_inv_intervalIntegrable (le_of_lt h1) (le_of_lt (lt_trans h1 h12))
  have hadd := intervalIntegral.integral_add_adjacent_intervals hi1 hi2
  have hpos : 0 < ∫ t in z1..z2, 1 / Efunc 0.27 t := by
    apply intervalIntegral.intervalIntegral_pos_of_pos_on hi2
    · intro x hx
      exact Efunc_inv_pos (by norm_num) (by norm_num) (le_of_lt (lt_trans h1 hx.1))
    · exact h12
  rw [comovingIntegral, comovingIntegral]
  linarith [hadd]

theorem hubble_mpc_pos : 0 < hubbleDistanceMpc 71 := by
  rw [hubbleDistanceMpc]; norm_num

theorem mpcInCm_pos : 0 < mpcInCm := by
  rw [mpcInCm]
  have := Real.pi_pos
  positivity

theorem calc_apec_norm_formula {z : ℝ} (hz : 0 < z) :
    calc_apec_norm z = 1.0e-14 /
      (4 * Real.pi * ((hubbleDistanceMpc 71 * mpcInCm) * comovingIntegral 0.27 z) ^ 2) := by
  show 1.0e-14 / (4 * Real.pi *
      ((angularDiameterDistanceMpc 71 0.27 z * mpcInCm) * (1 + z)) ^ 2) = _
  rw [angularDiameterDistanceMpc]
  have h1z : (1 : ℝ) + z ≠ 0 := by positivity
  congr 2
  field_simp
  ring

theorem calc_apec_norm_pos {z : ℝ} (hz : 0 < z) : 0 < calc_apec_norm z := by
  rw [calc_apec_norm_formula hz]
  have hK : 0 < hubbleDistanceMpc 71 * mpcInCm := mul_pos hubble_mpc_pos mpcInCm_pos
  have hI := comovingIntegral_pos hz
  apply div_pos (by norm_num)
  have hsq : 0 < (hubbleDistanceMpc 71 * mpcInCm * comovingIntegral 0.27 z) ^ 2 :=
    pow_pos (mul_pos hK hI) 2
  have hpi := Real.pi_pos
  have h4pi : (0:ℝ) < 4 * Real.pi := by linarith
  exact mul_pos h4pi hsq

theorem calc_apec_norm_anti {z1 z2 : ℝ} (h1 : 0 < z1) (h12 : z1 < z2) :
    calc_apec_norm z2 < calc_apec_norm z1 := by
  rw [calc_apec_norm_formula h1, calc_apec_norm_formula (lt_trans h1 h12)]
  have hK : 0 < hubbleDistanceMpc 71 * mpcInCm := mul_pos hubble_mpc_pos mpcInCm_pos
  have hI1 := comovingIntegral_pos h1
  have hI2 := comovingIntegral_pos (lt_trans h1 h12)
  have hII := comovingIntegral_lt h1 h12
  have hlt : (hubbleDistanceMpc 71 * mpcInCm * comovingIntegral 0.27 z1) ^ 2 <
      (hubbleDistanceMpc 71 * mpcInCm * comovingIntegral 0.27 z2) ^ 2 := by
    apply pow_lt_pow_left₀ _ (le_of_lt (mul_pos hK hI1)) (by norm_num)
    exact mul_lt_mul_of_pos_left hII hK
  have hpi := Real.pi_pos
  have hd1 : 0 < 4 * Real.pi *
      (hubbleDistanceMpc 71 * mpcInCm * comovingIntegral 0.27 z1) ^ 2 :=
    mul_pos (by linarith) (pow_pos (mul_pos hK hI1) 2)
  have hd2 : 0 < 4 * Real.pi *
      (hubbleDistanceMpc 71 * mpcInCm * comovingIntegral 0.27 z2) ^ 2 :=
    mul_pos (by linarith) (pow_pos (mul_pos hK hI2) 2)
  apply (div_lt_div_iff_of_pos_left (by norm_num) hd2 hd1).mpr
  have h4 : (0:ℝ) < 4 * Real.pi := by linarith
  exact mul_lt_mul_of_pos_left hlt h4

/-! ### Lemmas about the metadata text stripping -/

theorem pyRstrip_no_strip {s strip : List Char} {c : Char}
    (hlast : s.getLast? = some c) (hc : strip.contains c = false) :
    pyRstrip s strip = s := by
  rw [pyRstrip, ← List.head?_reverse] at *
  cases hrev : s.reverse with
  | nil => rw [hrev] at hlast; exact Option.noConfusion hlast
  | cons d t =>
    rw [hrev] at hlast
    have hd : d = c := by
      simp only [List.head?_cons, Option.some.injEq] at hlast
      exact hlast
    subst hd
    rw [List.dropWhile_cons, hc]
    simp only [Bool.false_eq_true, if_false]
    rw [← hrev, List.reverse_reverse]

theorem pyRstrip_append_strip (s : List Char) (c : Char) (strip : List Char)
    (hc : strip.contains c = true) : pyRstrip (s ++ [c]) strip = pyRstrip s strip := by
  rw [pyRstrip, pyRstrip, List.reverse_append]
  simp only [List.reverse_cons, List.reverse_nil, List.nil_append, List.singleton_append,
    List.dropWhile_cons, hc]
  simp

theorem pei_info_text_append_comma {s : List Char} (hlast : s.getLast? = some '\x7d') :
    pei_info_text (s ++ [',']) = pei_info_text s := by
  rw [pei_info_text, pei_info_text]
  rw [pyRstrip_no_strip (List.getLast?_concat s) (by decide)]
  rw [pyRstrip_append_strip s ',' [','] (by decide)]
  rw [pyRstrip_no_strip hlast (by decide)]
  rw [pyRstrip_no_strip hlast (by decide), pyRstrip_no_strip hlast (by decide)]

/-! ### Lemma about heap allocation -/

theorem NpHeap.read_alloc {h : NpHeap} {v : NpValue} {r : ℕ} (hr : r < h.arrs.length) :
    ((h.alloc v).1).read r = h.read r := by
  show (⟨h.arrs ++ [v]⟩ : NpHeap).read r = h.read r
  rw [NpHeap.read, NpHeap.read]
  exact List.getD_append _ _ _ _ hr

theorem NpHeap.read_append {h : NpHeap} {l : List NpValue} {r : ℕ}
    (hr : r < h.arrs.length) : NpHeap.read ⟨h.arrs ++ l⟩ r = h.read r := by
  rw [NpHeap.read, NpHeap.read]
  exact List.getD_append _ _ _ _ hr

/-! ## Claims -/

/-- Claim C1, as stated, is false: for a flat PSD the bounding rectangle is
degenerate, so `area_total = 0` and `pei_value` is the indeterminate `0/0`
(`NaN` at runtime, `0` in this real-number model), never `0.5`.  Concretely,
for the flat PSD `peiPsdFlatEx` (constant power `1.0`) and
`r500Ex = 2000/7 > 0`, `calc_pei` does not return `pei_value = 0.5`. -/
theorem C1_flat_psd_counterexample :
    (calc_pei peiFreqsEx peiPsdFlatEx r500Ex).map (fun v => v.1.pei_value) ≠
      some 0.5 := by
  have hcond := peiCond_ex pei_x_flat 101
  have hc : ∀ v ∈ peiPsdFlatEx, v = (1:ℝ) := by
    intro v hv
    fin_cases hv <;> rfl
  have hpv := (calc_pei_flat_aux hc hcond).2.2
  rw [calc_pei_eq_some hcond, Option.map_some']
  simp only [hpv]
  intro hcontra
  rw [Option.some.injEq] at hcontra
  norm_num at hcontra

/-- Claim C1 amended: for every PSD input whose power values are all equal
(a perfectly flat PSD), whenever `calc_pei` returns a result, its
`area_total` and `area_below` are both exactly `0`, and `pei_value` is the
indeterminate quotient `0/0` (NaN in the floating-point implementation;
`0` under this model's convention for division by zero) — not `0.5`. -/
theorem C1_flat_psd_amended (freqs psd1d : List ℝ) (c r500 : ℝ) (n : ℕ)
    (hc : ∀ v ∈ psd1d, v = c) (h : (calc_pei freqs psd1d r500 n).isSome) :
    (calc_pei freqs psd1d r500 n).map
      (fun v => (v.1.area_total, v.1.area_below, v.1.pei_value)) = some (0, 0, 0) := by
  have hcond := peiCond_of_isSome h
  obtain ⟨hat, hab, hpv⟩ := calc_pei_flat_aux hc hcond
  rw [calc_pei_eq_some hcond, Option.map_some']
  simp only [hat, hab, hpv]

/-- Witness for C1: the amended theorem applied to the concrete flat PSD. -/
theorem C1_flat_psd_witness :
    (calc_pei peiFreqsEx peiPsdFlatEx r500Ex 101).map
      (fun v => (v.1.area_total, v.1.area_below, v.1.pei_value)) = some (0, 0, 0) := by
  have hc : ∀ v ∈ peiPsdFlatEx, v = (1:ℝ) := by
    intro v hv
    fin_cases hv <;> rfl
  have hs : (calc_pei peiFreqsEx peiPsdFlatEx r500Ex 101).isSome := by
    rw [calc_pei_eq_some (peiCond_ex pei_x_flat 101)]
    rfl
  exact C1_flat_psd_amended peiFreqsEx peiPsdFlatEx 1 r500Ex 101 hc hs

/-- Claim C2, as stated, is false: `calc_pei` performs no parity correction
on `interp_np` (`np.linspace(..., num=interp_np)` is called as is), so with
`interp_np = 100` the returned interpolated sequence has 100 rows, not
101. -/
theorem C2_parity_counterexample :
    (calc_pei peiFreqsEx peiPsdEx r500Ex 100).map (fun v => v.2.length) ≠
      some 101 := by
  rw [calc_pei_len_aux (peiCond_ex pei_x_ex 100)]
  intro hcontra
  rw [Option.some.injEq] at hcontra
  omega

/-- Claim C2 amended: the interpolation-sampling step of `calc_pei` uses
`interp_np` unchanged (no odd-parity correction exists in this variant), so
whenever `calc_pei` returns, the interpolated sequence has exactly
`interp_np` rows — in particular 100 rows for `interp_np = 100`. -/
theorem C2_rows_amended (freqs psd1d : List ℝ) (r500 : ℝ) (n : ℕ)
    (h : (calc_pei freqs psd1d r500 n).isSome) :
    (calc_pei freqs psd1d r500 n).map (fun v => v.2.length) = some n :=
  calc_pei_len_aux (peiCond_of_isSome h)

/-- Witness for C2: the amended theorem applied at `interp_np = 100`. -/
theorem C2_rows_witness :
    (calc_pei peiFreqsEx peiPsdEx r500Ex 100).map (fun v => v.2.length) =
      some 100 := by
  have hs : (calc_pei peiFreqsEx peiPsdEx r500Ex 100).isSome := by
    rw [calc_pei_eq_some (peiCond_ex pei_x_ex 100)]
    rfl
  exact C2_rows_amended peiFreqsEx peiPsdEx r500Ex 100 hs

/-- Claim C3: `calc_pei` implements the bounding-box + trapezoid policy.
Whenever it returns `(res, seq)`, `res.area_total` is the rectangle
`[x1, x2] × [min y_interp, max y_interp]` (with `x1, x2` the two
characteristic log-frequencies), `res.area_below` is the trapezoidal
definite integral of `y_interp - min y_interp` over the sampled abscissae,
and `res.pei_value = res.area_below / res.area_total`; `spec_rect_area` and
`spec_trapezoid` are written from the spec's words. -/
theorem C3_bounding_box_trapezoid (freqs psd1d : List ℝ) (r500 : ℝ) (n : ℕ)
    (res : PeiResult) (seq : List (ℝ × ℝ))
    (h : calc_pei freqs psd1d r500 n = some (res, seq)) :
    res.area_total = spec_rect_area (pei_xmin r500) (pei_xmax r500)
        (listMin (seq.map Prod.snd)) (listMax (seq.map Prod.snd)) ∧
    res.area_below = spec_trapezoid (seq.map Prod.fst)
        ((seq.map Prod.snd).map (fun v => v - listMin (seq.map Prod.snd))) ∧
    res.pei_value = res.area_below / res.area_total := by
  have hcond := peiCond_of_eq_some h
  rw [calc_pei_eq_some hcond, Option.some.injEq] at h
  injection h with hres hseq
  subst hres
  subst hseq
  have hlen : (y_interp freqs psd1d r500 n).length = (x_interp r500 n).length := by
    rw [y_interp_length, x_interp, linspace_length]
  have hfst : ((x_interp r500 n).zip (y_interp freqs psd1d r500 n)).map Prod.fst =
      x_interp r500 n :=
    List.map_fst_zip _ _ (le_of_eq hlen.symm)
  have hsnd : ((x_interp r500 n).zip (y_interp freqs psd1d r500 n)).map Prod.snd =
      y_interp freqs psd1d r500 n :=
    List.map_snd_zip _ _ (le_of_eq hlen)
  rw [hfst, hsnd]
  refine ⟨?_, ?_, rfl⟩
  · show area_total freqs psd1d r500 n = _
    rw [area_total, spec_rect_area, pei_ymax, pei_ymin]
  · show area_below freqs psd1d r500 n = _
    rw [area_below, pei_ymin, ← trapz_eq_spec_trapezoid]

/-- Witness for C3: the policy theorem applied to the concrete example with
`interp_np = 2`, whose result is `area_total = 1`, `area_below = 1/2`,
`pei_value = 1/2` on the sequence `[(-2, 2), (-1, 1)]`. -/
theorem C3_bounding_box_trapezoid_witness :
    ({ area_total := 1, area_below := 1/2, pei_value := 1/2 } : PeiResult).area_total =
      spec_rect_area (pei_xmin r500Ex) (pei_xmax r500Ex)
        (listMin (([((-2 : ℝ), (2 : ℝ)), (-1, 1)]).map Prod.snd))
        (listMax (([((-2 : ℝ), (2 : ℝ)), (-1, 1)]).map Prod.snd)) ∧
    ({ area_total := 1, area_below := 1/2, pei_value := 1/2 } : PeiResult).area_below =
      spec_trapezoid (([((-2 : ℝ), (2 : ℝ)), (-1, 1)]).map Prod.fst)
        ((([((-2 : ℝ), (2 : ℝ)), (-1, 1)]).map Prod.snd).map
          (fun v => v - listMin (([((-2 : ℝ), (2 : ℝ)), (-1, 1)]).map Prod.snd))) ∧
    ({ area_total := 1, area_below := 1/2, pei_value := 1/2 } : PeiResult).pei_value =
      ({ area_total := 1, area_below := 1/2, pei_value := 1/2 } : PeiResult).area_below /
        ({ area_total := 1, area_below := 1/2, pei_value := 1/2 } : PeiResult).area_total :=
  C3_bounding_box_trapezoid peiFreqsEx peiPsdEx r500Ex 2 _ _ calc_pei_ex2

/-- Claim C4: whenever `calc_pei` returns a result on a PSD input with
`r500 > 0` and interpolated log-power values that are not all equal (so the
bounding rectangle is nondegenerate), `area_below` never exceeds
`area_total` and `pei_value` lies in the closed interval `[0, 1]`. -/
theorem C4_pei_value_in_unit_interval (freqs psd1d : List ℝ) (r500 : ℝ) (n : ℕ)
    (res : PeiResult) (seq : List (ℝ × ℝ)) (hr : 0 < r500)
    (h : calc_pei freqs psd1d r500 n = some (res, seq))
    (hne : listMin (seq.map Prod.snd) ≠ listMax (seq.map Prod.snd)) :
    res.area_below ≤ res.area_total ∧ 0 ≤ res.pei_value ∧ res.pei_value ≤ 1 := by
  have hcond := peiCond_of_eq_some h
  rw [calc_pei_eq_some hcond, Option.some.injEq] at h
  injection h with hres hseq
  subst hres
  subst hseq
  have hlen : (y_interp freqs psd1d r500 n).length = (x_interp r500 n).length := by
    rw [y_interp_length, x_interp, linspace_length]
  have hsnd : ((x_interp r500 n).zip (y_interp freqs psd1d r500 n)).map Prod.snd =
      y_interp freqs psd1d r500 n :=
    List.map_snd_zip _ _ (le_of_eq hlen)
  rw [hsnd] at hne
  -- the interpolated sequence cannot be empty or a singleton
  have hne_nil : y_interp freqs psd1d r500 n ≠ [] := by
    intro hnil
    rw [hnil] at hne
    exact hne rfl
  have hn2 : 2 ≤ n := by
    by_contra hlt
    push_neg at hlt
    interval_cases n
    · exact hne_nil (List.length_eq_zero.1 (y_interp_length freqs psd1d r500 0))
    · obtain ⟨v, hv⟩ := List.length_eq_one.1 (y_interp_length freqs psd1d r500 1)
      rw [hv] at hne
      exact hne rfl
  -- the rectangle height is positive
  have hminmax : listMin (y_interp freqs psd1d r500 n) <
      listMax (y_interp freqs psd1d r500 n) :=
    lt_of_le_of_ne (listMin_le_listMax hne_nil) hne
  have hxmax : pei_xmax r500 = pei_xmin r500 + 1 := pei_xmax_eq hr
  have hat : area_total freqs psd1d r500 n =
      pei_ymax freqs psd1d r500 n - pei_ymin freqs psd1d r500 n := by
    rw [area_total, hxmax]
    ring
  have hat_pos : 0 < area_total freqs psd1d r500 n := by
    rw [hat, pei_ymax, pei_ymin]
    linarith
  -- trapezoid bounds over the linspace abscissae
  have hbounds := trapz_bounds
    ((y_interp freqs psd1d r500 n).map (fun v => v - pei_ymin freqs psd1d r500 n))
    (x_interp r500 n)
    (pei_ymax freqs psd1d r500 n - pei_ymin freqs psd1d r500 n)
    (by rw [List.length_map]; exact hlen)
    (by rw [x_interp]; exact linspace_chain _ _ (by rw [hxmax]; linarith))
    (by
      intro y hy
      obtain ⟨v, hv, rfl⟩ := List.mem_map.1 hy
      have := listMin_le hv
      rw [pei_ymin]
      linarith [listMin_le hv])
    (by
      intro y hy
      obtain ⟨v, hv, rfl⟩ := List.mem_map.1 hy
      rw [pei_ymin, pei_ymax]
      linarith [le_listMax hv])
  have hhead : (x_interp r500 n).headD 0 = pei_xmin r500 := by
    rw [x_interp]; exact linspace_headD _ _ (by omega)
  have hlast : (x_interp r500 n).getLastD 0 = pei_xmax r500 := by
    rw [x_interp]; exact linspace_getLastD _ _ hn2
  have hab_le : area_below freqs psd1d r500 n ≤ area_total freqs psd1d r500 n := by
    have h2 := hbounds.2
    rw [hhead, hlast, hxmax] at h2
    rw [area_below, hat]
    calc trapz _ _ ≤ (pei_xmin r500 + 1 - pei_xmin r500) *
          (pei_ymax freqs psd1d r500 n - pei_ymin freqs psd1d r500 n) := h2
      _ = pei_ymax freqs psd1d r500 n - pei_ymin freqs psd1d r500 n := by ring
  have hab_nonneg : 0 ≤ area_below freqs psd1d r500 n := by
    rw [area_below]
    exact hbounds.1
  refine ⟨hab_le, ?_, ?_⟩
  · show 0 ≤ pei_value freqs psd1d r500 n
    rw [pei_value]
    exact div_nonneg hab_nonneg (le_of_lt hat_pos)
  · show pei_value freqs psd1d r500 n ≤ 1
    rw [pei_value]
    exact (div_le_one hat_pos).mpr hab_le

/-- Witness for C4: the bound theorem applied to the concrete example with
`interp_np = 2`, whose interpolated values `[2, 1]` are not all equal. -/
theorem C4_pei_value_in_unit_interval_witness :
    ({ area_total := 1, area_below := 1/2, pei_value := 1/2 } : PeiResult).area_below ≤
      ({ area_total := 1, area_below := 1/2, pei_value := 1/2 } : PeiResult).area_total ∧
    0 ≤ ({ area_total := 1, area_below := 1/2, pei_value := 1/2 } : PeiResult).pei_value ∧
    ({ area_total := 1, area_below := 1/2, pei_value := 1/2 } : PeiResult).pei_value ≤ 1 := by
  apply C4_pei_value_in_unit_interval peiFreqsEx peiPsdEx r500Ex 2 _
    [((-2 : ℝ), (2 : ℝ)), (-1, 1)]
  · rw [r500Ex]; norm_num
  · exact calc_pei_ex2
  · show listMin [(2:ℝ), 1] ≠ listMax [(2:ℝ), 1]
    show min 2 1 ≠ max (2:ℝ) 1
    norm_num

/-- Claim C5: with the default cosmology (`H0 = 71`, `OmegaM0 = 0.27`),
`calc_apec_norm` returns `1e-14 / (4 π (D_A(z) (1+z))^2)` with `D_A` the
angular-diameter distance in centimeters; this value is strictly positive
for every `z > 0`, and it is strictly decreasing in `z` (which in
particular covers the regime where the angular-diameter distance is
increasing in `z`). -/
theorem C5_apec_norm (z z1 z2 : ℝ) (hz : 0 < z) (h1 : 0 < z1) (h12 : z1 < z2) :
    calc_apec_norm z = 1.0e-14 /
      (4 * Real.pi * ((angularDiameterDistanceMpc 71 0.27 z * mpcInCm) * (1 + z)) ^ 2) ∧
    0 < calc_apec_norm z ∧ calc_apec_norm z2 < calc_apec_norm z1 :=
  ⟨rfl, calc_apec_norm_pos hz, calc_apec_norm_anti h1 h12⟩

/-- Witness for C5 at `z = 1`, `z1 = 1`, `z2 = 2`. -/
theorem C5_apec_norm_witness :
    calc_apec_norm 1 = 1.0e-14 /
      (4 * Real.pi * ((angularDiameterDistanceMpc 71 0.27 1 * mpcInCm) * (1 + 1)) ^ 2) ∧
    0 < calc_apec_norm 1 ∧ calc_apec_norm 2 < calc_apec_norm 1 :=
  C5_apec_norm 1 1 2 (by norm_num) (by norm_num) (by norm_num)

/-- Claim C6, as stated, is false: `main` strips trailing commas only from
the very end of the metadata text, so a comma before the final closing
brace survives `rstrip().rstrip(",")`, and the strict JSON parse of that
variant fails while the variant without the comma parses — the two are not
parsed identically. -/
theorem C6_trailing_comma_counterexample :
    pei_load_info infoCommaBeforeBrace = none ∧
    pei_load_info infoNoComma = some [(['S', 'r', 'c'], ['A'])] ∧
    pei_load_info infoCommaBeforeBrace ≠ pei_load_info infoNoComma := by
  refine ⟨by decide, by decide, by decide⟩

/-- Claim C6 amended: the tolerance applies to a trailing comma at the end
of the metadata text, after the final closing brace: for every text ending
in the closing brace, appending a comma yields a text parsed identically,
because `rstrip().rstrip(",")` removes it before parsing. -/
theorem C6_trailing_comma_amended (s : List Char) (hlast : s.getLast? = some '\x7d') :
    pei_load_info (s ++ [',']) = pei_load_info s := by
  rw [pei_load_info, pei_load_info, pei_info_text_append_comma hlast]

/-- Witness for C6: the amended theorem applied to the concrete metadata
text. -/
theorem C6_trailing_comma_witness :
    pei_load_info (infoNoComma ++ [',']) = pei_load_info infoNoComma :=
  C6_trailing_comma_amended infoNoComma (by decide)

/-- Claim C7: `calc_pei` applies the log transform on the frequency axis
only to the retained pairs, every retained frequency is strictly positive,
and every non-positive frequency pair is excluded from the retained
pairs. -/
theorem C7_log_only_positive_freqs (freqs psd1d : List ℝ) :
    (∀ p ∈ pei_mask_pairs freqs psd1d, 0 < p.1) ∧
    (∀ p ∈ freqs.zip psd1d, ¬ 0 < p.1 → p ∉ pei_mask_pairs freqs psd1d) ∧
    pei_x freqs psd1d = (pei_mask_pairs freqs psd1d).map (fun p => Real.logb 10 p.1) := by
  refine ⟨?_, ?_, rfl⟩
  · intro p hp
    exact of_decide_eq_true (List.mem_filter.1 hp).2
  · intro p _ hnp hmem
    exact hnp (of_decide_eq_true (List.mem_filter.1 hmem).2)

/-- Witness for C7: the pair `(2, 5)` is retained by the mask on the input
`freqs = [2, -3]`, `psd1d = [5, 7]`, and its frequency is positive. -/
theorem C7_log_only_positive_freqs_witness : 0 < (((2 : ℝ), (5 : ℝ))).1 := by
  have hmem : ((2 : ℝ), (5 : ℝ)) ∈ pei_mask_pairs [2, -3] [5, 7] := by
    apply List.mem_filter.mpr
    refine ⟨?_, decide_eq_true (by norm_num)⟩
    simp
  exact (C7_log_only_positive_freqs [2, -3] [5, 7]).1 _ hmem

/-- Claim C8: when the config omits `abund_table` the resolved value is
`"grsa"`; when it omits `energy_high` the resolved value falls back to the
same literal `0.7` that is `energy_low`'s default (the documented latent
defect); and the script generated from the resolved config is identical to
the one generated from a config carrying those values explicitly. -/
theorem C8_coolfunc_defaults (config : CoolfuncConfig) (prog_name cur_date : String)
    (fq : ℚ → String) (fr : ℝ → String)
    (hab : config.abund_table = none) (heh : config.energy_high = none) :
    (buildConfigData prog_name cur_date config).abund_table = "grsa" ∧
    (buildConfigData prog_name cur_date config).energy_high = 0.7 ∧
    (∀ config' : CoolfuncConfig, config'.energy_low = none →
      (buildConfigData prog_name cur_date config').energy_low = 0.7) ∧
    gen_xspec_script (configDataFields fq fr (buildConfigData prog_name cur_date config)) =
      gen_xspec_script (configDataFields fq fr (buildConfigData prog_name cur_date
        { config with abund_table := some "grsa", energy_high := some 0.7 })) := by
  refine ⟨?_, ?_, ?_, ?_⟩
  · show config.abund_table.getD "grsa" = "grsa"
    rw [hab]; rfl
  · show config.energy_high.getD 0.7 = 0.7
    rw [heh]; rfl
  · intro config' h'
    show config'.energy_low.getD 0.7 = 0.7
    rw [h']; rfl
  · simp [buildConfigData, configDataFields, hab, heh]

/-- Witness for C8: the defaults theorem applied to the concrete config
that omits `abund_table` and `energy_high`. -/
theorem C8_coolfunc_defaults_witness :
    (buildConfigData "calc_coolfunc.py" "2016-06-19" coolfuncConfigEx).abund_table = "grsa" ∧
    (buildConfigData "calc_coolfunc.py" "2016-06-19" coolfuncConfigEx).energy_high = 0.7 ∧
    (∀ config' : CoolfuncConfig, config'.energy_low = none →
      (buildConfigData "calc_coolfunc.py" "2016-06-19" config').energy_low = 0.7) ∧
    gen_xspec_script (configDataFields fqEx frEx
        (buildConfigData "calc_coolfunc.py" "2016-06-19" coolfuncConfigEx)) =
      gen_xspec_script (configDataFields fqEx frEx
        (buildConfigData "calc_coolfunc.py" "2016-06-19"
          { coolfuncConfigEx with abund_table := some "grsa", energy_high := some 0.7 })) :=
  C8_coolfunc_defaults coolfuncConfigEx "calc_coolfunc.py" "2016-06-19" fqEx frEx rfl rfl

/-- Claim C9: the `r500_err_pix` value placed in the PEI output record is
the arithmetic mean of the absolute values of the lower and upper R500
uncertainties. -/
theorem C9_r500_err_pix (name : String) (obsid : ℤ) (r500 : R500Info) (pei : PeiResult) :
    (main_pei_data name obsid r500 pei).lookup "r500_err_pix" =
      some (.num ((|r500.r500EL_pix| + |r500.r500EU_pix|) / 2)) := by
  rfl

/-- Claim C10: at the heap level, `calc_pei` modifies no pre-existing
array — every reference allocated before the call reads the same array
value afterwards (in particular the input frequency and power arrays), and
the returned interpolated-sequence reference is freshly allocated (it lies
beyond every pre-existing reference). -/
theorem C10_inputs_unchanged (h : NpHeap) (rf rp : ℕ) (r500 : ℝ) (interp_np : ℕ)
    (r : ℕ) (hr : r < h.arrs.length) :
    (calc_pei_heap h rf rp r500 interp_np).1.read r = h.read r ∧
    ∀ res rseq, (calc_pei_heap h rf rp r500 interp_np).2 = some (res, rseq) →
      h.arrs.length ≤ rseq := by
  rcases hf : h.read rf with freqs | s1
  case arr2 =>
    rw [calc_pei_heap, hf]
    exact ⟨rfl, fun res rseq hcontra => Option.noConfusion hcontra⟩
  rcases hp : h.read rp with psd1d | s2
  case arr2 =>
    rw [calc_pei_heap, hf, hp]
    exact ⟨rfl, fun res rseq hcontra => Option.noConfusion hcontra⟩
  rw [calc_pei_heap, hf, hp]
  rcases hcp : calc_pei freqs psd1d r500 interp_np with _ | v
  · simp only [hcp, NpHeap.alloc, List.append_assoc]
    exact ⟨NpHeap.read_append hr, fun res rseq hcontra => Option.noConfusion hcontra⟩
  · obtain ⟨res0, seq0⟩ := v
    simp only [hcp, NpHeap.alloc, List.append_assoc]
    constructor
    · exact NpHeap.read_append hr
    · intro res rseq hsome
      simp only [Option.some.injEq] at hsome
      have hrseq : rseq = (h.arrs ++ _).length := (Prod.ext_iff.1 hsome.symm).2
      rw [hrseq, List.length_append]
      omega

/-- Witness for C10: the frame theorem applied to a concrete two-array
heap. -/
theorem C10_inputs_unchanged_witness :
    (calc_pei_heap npHeapEx 0 1 1 5).1.read 0 = npHeapEx.read 0 ∧
    ∀ res rseq, (calc_pei_heap npHeapEx 0 1 1 5).2 = some (res, rseq) →
      npHeapEx.arrs.length ≤ rseq :=
  C10_inputs_unchanged npHeapEx 0 1 1 5 0 (by simp [npHeapEx])

end Cexess
